import Mathlib

/-!
Verification development for the vCard-to-Excel converter
(`src/scr/vcf_converter_gui.py`).  The core pipeline functions
(`read_vcf_content`'s decode step, `normalize_phone_number`,
`get_contact_name`, `process_vcf_data`) are shallowly embedded below.
External libraries (`phonenumbers`, `vobject`, the codec machinery and
`chardet`) are modelled as parameters: a `PhoneLib` record, a
`readOne : String → Option VCard` oracle (with `none` standing for a raised
exception), and decoder functions, so every theorem quantifies over all
possible behaviours of those libraries.

Python string primitives are modelled directly on `List Char`
(`pyStrip` for `str.strip`, `pySplit` for `str.split`, `pyContains` for
the `in` operator, `pyJoin` for `str.join`, `pyLower` for `str.lower`).
`str.isdigit` is modelled on the ASCII digits (the Unicode digit classes
behave identically on the phone inputs at issue), and `str.strip`'s
whitespace class is modelled by its ASCII part.
-/

namespace VcfConverter

/-- Whitespace characters stripped by Python's `str.strip()` (ASCII part). -/
def isPySpace (c : Char) : Bool :=
  c == ' ' || c == '\t' || c == '\n' || c == '\r' || c == '\x0b' || c == '\x0c'

/-- Model of Python `s.strip()`: drop leading and trailing whitespace. -/
def pyStrip (s : String) : String :=
  String.mk (((s.data.dropWhile isPySpace).reverse.dropWhile isPySpace).reverse)

/-- Model of Python `sep.join(parts)`. -/
def pyJoin (sep : String) (parts : List String) : String :=
  String.mk (List.intercalate sep.data (parts.map String.data))

/-- Model of Python `s.lower()` (ASCII case folding). -/
def pyLower (s : String) : String :=
  String.mk (s.data.map Char.toLower)

/-- Fuel-driven worker for the split model; each step consumes at least one
character, so fuel equal to the character count suffices. -/
def splitOnListAux (sep : List Char) : Nat → List Char → List (List Char)
  | _, [] => [[]]
  | 0, l => [l]
  | fuel + 1, c :: rest =>
    if sep.isPrefixOf (c :: rest) then
      [] :: splitOnListAux sep fuel (List.drop (sep.length - 1) rest)
    else
      match splitOnListAux sep fuel rest with
      | [] => [[c]]
      | h :: t => (c :: h) :: t

/-- Model of Python `s.split(sep)` on character lists: split `l` at each
non-overlapping occurrence of `sep`, scanning left to right. -/
def splitOnList (sep l : List Char) : List (List Char) :=
  splitOnListAux sep l.length l

/-- Model of Python `s.split(sep)` for a non-empty separator. -/
def pySplit (s sep : String) : List String :=
  (splitOnList sep.data s.data).map String.mk

/-- Substring occurrence test on character lists. -/
def containsList (sep : List Char) : List Char → Bool
  | [] => sep.isEmpty
  | c :: rest => sep.isPrefixOf (c :: rest) || containsList sep rest

/-- Model of Python `sub in s`. -/
def pyContains (s sub : String) : Bool :=
  containsList sub.data s.data

/-- Model of Python's truthiness test pattern `s and s.strip()` used
throughout the source: the string is non-empty and strips to non-empty. -/
def pyTruthyStripped (s : String) : Bool :=
  s != "" && pyStrip s != ""

/-- Lexicographic comparison of character lists by code point — the string
order used by Python's `sorted`. -/
def lexLe : List Char → List Char → Bool
  | [], _ => true
  | _ :: _, [] => false
  | a :: as, b :: bs =>
    if a.toNat < b.toNat then true
    else if b.toNat < a.toNat then false
    else lexLe as bs

/-- Model of Python string comparison `a <= b`. -/
def pyLe (a b : String) : Bool := lexLe a.data b.data

/-- The ordering relation induced by `pyLe`, used for sorting. -/
def pyLeRel : String → String → Prop := fun a b => pyLe a b = true

instance : DecidableRel pyLeRel :=
  fun a b => inferInstanceAs (Decidable (pyLe a b = true))

/-! ### Phone normalizer (`normalize_phone_number`, lines 76-87) -/

/-- Character filter from line 81 of the source:
`lambda char: char.isdigit() or char in '+'`.  Note that `char in '+'`
holds exactly when the character IS a plus sign, at any position. -/
def keepPhoneChar (c : Char) : Bool :=
  c.isDigit || c == '+'

/-- Line 81: `"".join(filter(lambda char: char.isdigit() or char in '+', number_str))`. -/
def cleanedNumber (s : String) : String :=
  String.mk (s.data.filter keepPhoneChar)

/-- Abstract model of the `phonenumbers` library over an opaque type `PN`
of parsed numbers.  `parse` returning `none` models a raised
`NumberParseException`. -/
structure PhoneLib (PN : Type) where
  parse : String → String → Option PN
  is_valid_number : PN → Bool
  format_E164 : PN → String

/-- Embedding of `normalize_phone_number` (lines 76-87): empty input returns
empty; otherwise filter the characters, parse with the region hint, and
return the E.164 format when the number is valid, falling back to the
stripped original on a parse exception or an invalid number. -/
def normalize_phone_number {PN : Type} (lib : PhoneLib PN)
    (number_str region : String) : String :=
  if number_str = "" then ""
  else
    match lib.parse (cleanedNumber number_str) region with
    | some pn =>
      if lib.is_valid_number pn then lib.format_E164 pn else pyStrip number_str
    | none => pyStrip number_str

/-! ### Contact extractor (`get_contact_name`, lines 89-102) -/

/-- Structured name value of a vCard `N` field (`vobject` `Name`). -/
structure StructuredName where
  given : String
  middle : String
  family : String

/-- Model of a parsed vCard as consumed by the source: each optional field
is `none` when `hasattr` fails in Python. -/
structure VCard where
  fn : Option String
  n : Option StructuredName
  org : Option (List String)
  tel_list : Option (List String)

/-- Placeholder name returned by `get_contact_name` when every fallback is
exhausted (line 102). -/
def unknownName : String := "غير معروف"

/-- Lines 91-93: the trimmed `FN` value when present and non-blank. -/
def nameFromFn (v : VCard) : Option String :=
  match v.fn with
  | some s => if pyTruthyStripped s then some (pyStrip s) else none
  | none => none

/-- Lines 94-98: join the non-blank stripped given/middle/family parts of
the `N` field with single spaces, when any part is non-blank. -/
def nameFromN (v : VCard) : Option String :=
  match v.n with
  | some nm =>
    let parts := [nm.given, nm.middle, nm.family].filterMap
      (fun p => if pyTruthyStripped p then some (pyStrip p) else none)
    if parts.isEmpty then none else some (pyJoin " " parts)
  | none => none

/-- Lines 99-101: the stripped first organization value when present and
non-blank. -/
def nameFromOrg (v : VCard) : Option String :=
  match v.org with
  | some (o :: _) => if pyTruthyStripped o then some (pyStrip o) else none
  | _ => none

/-- Embedding of `get_contact_name` (lines 89-102): first non-empty among
FN, joined N parts, first ORG value, else the fixed placeholder. -/
def get_contact_name (v : VCard) : String :=
  match nameFromFn v with
  | some r => r
  | none =>
    match nameFromN v with
    | some r => r
    | none =>
      match nameFromOrg v with
      | some r => r
      | none => unknownName

/-! ### Batch processor (`process_vcf_data`, lines 104-133) -/

/-- Literal begin-record marker from line 108. -/
def beginMarker : String := "BEGIN:VCARD"

/-- Literal end-record marker from line 109. -/
def endMarker : String := "END:VCARD"

/-- Lines 115-120: collect, in `tel_list` order, the non-empty normalized
values of the non-blank telephone fields. -/
def telCandidates {PN : Type} (lib : PhoneLib PN) (region : String)
    (tels : List String) : List String :=
  tels.filterMap (fun tel =>
    if pyTruthyStripped tel then
      let normalized := normalize_phone_number lib tel region
      if normalized != "" then some normalized else none
    else none)

/-- Lines 114-125: the `sorted(list(normalized_numbers))` value — the
distinct normalized numbers of the record in lexicographic order.  Python's
set semantics are modelled by `List.dedup`; its iteration order is
irrelevant because the result is sorted (see the order-parametric variant
below). -/
def recordNumbers {PN : Type} (lib : PhoneLib PN) (region : String)
    (v : VCard) : List String :=
  List.insertionSort pyLeRel (telCandidates lib region (v.tel_list.getD [])).dedup

/-- Lines 113-126: the rows contributed by one successfully parsed record —
one `(name, number)` pair per distinct normalized number, in sorted order;
a record with an empty normalized set contributes nothing. -/
def extractRecordRows {PN : Type} (lib : PhoneLib PN) (region : String)
    (v : VCard) : List (String × String) :=
  (recordNumbers lib region v).map (fun num => (get_contact_name v, num))

/-- Lines 109-128: the rows contributed by one chunk of the split content.
A chunk without the end marker is skipped (line 109); `readOne` returning
`none` models any exception from `vobject.readOne` or the extraction of the
record, caught at line 127 and skipped. -/
def chunkRows {PN : Type} (readOne : String → Option VCard)
    (lib : PhoneLib PN) (region : String) (card_text : String) :
    List (String × String) :=
  if pyContains card_text endMarker then
    match readOne (beginMarker ++ "\n" ++ card_text) with
    | some vcard => extractRecordRows lib region vcard
    | none => []
  else []

/-- Embedding of `process_vcf_data` (lines 104-133): split the content on
the begin marker and accumulate each chunk's rows in order. -/
def process_vcf_data {PN : Type} (readOne : String → Option VCard)
    (lib : PhoneLib PN) (vcf_content region : String) :
    List (String × String) :=
  (pySplit vcf_content beginMarker).foldl
    (fun acc chunk => acc ++ chunkRows readOne lib region chunk) []

/-- Model of the splitting/iteration step guarded by the outer `try` of
`process_vcf_data` (lines 107-131).  `str.split` on a fixed non-empty
literal is total in the Python runtime, which the model records by always
returning `some`. -/
def splitCards (vcf_content : String) : Option (List String) :=
  some (pySplit vcf_content beginMarker)

/-- Embedding of `process_vcf_data` with its outer exception channel
(lines 107-131): `Except.error` models the `ValueError` raised when
splitting or iterating the document itself fails. -/
def process_vcf_dataE {PN : Type} (readOne : String → Option VCard)
    (lib : PhoneLib PN) (vcf_content region : String) :
    Except String (List (String × String)) :=
  match splitCards vcf_content with
  | some chunks =>
    Except.ok (chunks.foldl
      (fun acc chunk => acc ++ chunkRows readOne lib region chunk) [])
  | none => Except.error "Failed to parse VCF data. The file might be corrupted."

/-! ### Nondeterministic set-iteration model

Python iterates `list(normalized_numbers)` over a `set` in an unspecified
order.  The variant below takes the iteration order as an explicit oracle
`ord`: a valid oracle lists exactly the distinct elements of the collected
numbers, in any order. -/

/-- A set-iteration oracle is valid when it enumerates each distinct
element of its input exactly once (in any order). -/
def validSetOrder (ord : List String → List String) : Prop :=
  ∀ l : List String, (ord l).Nodup ∧ ∀ x, x ∈ ord l ↔ x ∈ l

/-- Variant of `recordNumbers` with an explicit set-iteration oracle. -/
def recordNumbersOrd {PN : Type} (ord : List String → List String)
    (lib : PhoneLib PN) (region : String) (v : VCard) : List String :=
  List.insertionSort pyLeRel (ord (telCandidates lib region (v.tel_list.getD [])))

/-- Variant of `extractRecordRows` with an explicit set-iteration oracle. -/
def extractRecordRowsOrd {PN : Type} (ord : List String → List String)
    (lib : PhoneLib PN) (region : String) (v : VCard) :
    List (String × String) :=
  (recordNumbersOrd ord lib region v).map (fun num => (get_contact_name v, num))

/-- Variant of `chunkRows` with an explicit set-iteration oracle. -/
def chunkRowsOrd {PN : Type} (ord : List String → List String)
    (readOne : String → Option VCard) (lib : PhoneLib PN) (region : String)
    (card_text : String) : List (String × String) :=
  if pyContains card_text endMarker then
    match readOne (beginMarker ++ "\n" ++ card_text) with
    | some vcard => extractRecordRowsOrd ord lib region vcard
    | none => []
  else []

/-- Variant of `process_vcf_data` with an explicit set-iteration oracle. -/
def process_vcf_dataOrd {PN : Type} (ord : List String → List String)
    (readOne : String → Option VCard) (lib : PhoneLib PN)
    (vcf_content region : String) : List (String × String) :=
  (pySplit vcf_content beginMarker).foldl
    (fun acc chunk => acc ++ chunkRowsOrd ord readOne lib region chunk) []

/-! ### Content reader decode step (`read_vcf_content`, lines 44-73) -/

/-- Lines 56-65: the candidate encoding list — the two fixed primaries, the
chardet detection (lowercased, only when new; `none` models both a `None`
detection result and a swallowed detector exception), then the fixed tail. -/
def build_encodings (detected : Option String) : List String :=
  let base := ["utf-8", "cp1256"]
  let withDet :=
    match detected with
    | some d => if base.contains (pyLower d) then base else base ++ [pyLower d]
    | none => base
  withDet ++ ["utf-8-sig", "latin-1", "iso-8859-6", "cp1252"]

/-- Lines 67-71: try each candidate in order with `errors='ignore'`
semantics (`dec` returning `none` models a raised `UnicodeError` or
`TypeError`), returning the first success. -/
def tryDecode (dec : List Nat → String → Option String) (raw : List Nat) :
    List String → Option String
  | [] => none
  | e :: es =>
    match dec raw e with
    | some t => some t
    | none => tryDecode dec raw es

/-- Embedding of the decode step of `read_vcf_content` (lines 56-73): try
the candidates in order; when every attempt raises, fall back to the
primary charset with `errors='replace'` (`decReplace`, total by the
replacement policy). -/
def decode_vcf_bytes (dec : List Nat → String → Option String)
    (decReplace : List Nat → String) (detected : Option String)
    (raw : List Nat) : String :=
  match tryDecode dec raw (build_encodings detected) with
  | some t => t
  | none => decReplace raw

/-! ### Concrete UTF-8 decoder with the ignore policy

Modelled from the runtime: CPython's `bytes.decode('utf-8',
errors='ignore')`, which never raises — malformed byte sequences are
dropped and well-formed ones decode to their scalar values. -/

/-- Continuation-byte test (`0x80..0xBF`). -/
def isCont (b : Nat) : Bool := 0x80 ≤ b && b ≤ 0xBF

/-- Decode one UTF-8 sequence from the front of the byte list, returning
the decoded character (or `none` for a malformed leading sequence, which is
ignored) and the remaining bytes. -/
def utf8Step : List Nat → Option Char × List Nat
  | [] => (none, [])
  | b :: rest =>
    if b ≤ 0x7F then (some (Char.ofNat b), rest)
    else if 0xC2 ≤ b && b ≤ 0xDF then
      match rest with
      | c :: r2 =>
        if isCont c then (some (Char.ofNat ((b % 32) * 64 + c % 64)), r2)
        else (none, rest)
      | [] => (none, [])
    else if 0xE0 ≤ b && b ≤ 0xEF then
      match rest with
      | c :: r2 =>
        let okC :=
          if b == 0xE0 then 0xA0 ≤ c && c ≤ 0xBF
          else if b == 0xED then 0x80 ≤ c && c ≤ 0x9F
          else isCont c
        if okC then
          match r2 with
          | d :: r3 =>
            if isCont d then
              (some (Char.ofNat ((b % 16) * 4096 + (c % 64) * 64 + d % 64)), r3)
            else (none, r2)
          | [] => (none, [])
        else (none, rest)
      | [] => (none, [])
    else if 0xF0 ≤ b && b ≤ 0xF4 then
      match rest with
      | c :: r2 =>
        let okC :=
          if b == 0xF0 then 0x90 ≤ c && c ≤ 0xBF
          else if b == 0xF4 then 0x80 ≤ c && c ≤ 0x8F
          else isCont c
        if okC then
          match r2 with
          | d :: r3 =>
            if isCont d then
              match r3 with
              | e :: r4 =>
                if isCont e then
                  (some (Char.ofNat
                    ((b % 8) * 262144 + (c % 64) * 4096 + (d % 64) * 64 + e % 64)), r4)
                else (none, r3)
              | [] => (none, [])
            else (none, r2)
          | [] => (none, [])
        else (none, rest)
      | [] => (none, [])
    else (none, rest)

/-- Fuel-driven loop for the UTF-8 decoder; `utf8Step` always consumes at
least one byte, so fuel equal to the byte count suffices. -/
def utf8DecodeIgnoreAux : Nat → List Nat → List Char
  | 0, _ => []
  | _, [] => []
  | fuel + 1, b :: rest =>
    match utf8Step (b :: rest) with
    | (some ch, r) => ch :: utf8DecodeIgnoreAux fuel r
    | (none, r) => utf8DecodeIgnoreAux fuel r

/-- UTF-8 decoding of a byte list with malformed sequences ignored. -/
def utf8DecodeIgnore (raw : List Nat) : String :=
  String.mk (utf8DecodeIgnoreAux raw.length raw)

/-! ### Order properties of the Python string comparison -/

theorem lexLe_cons_iff (a b : Char) (as bs : List Char) :
    lexLe (a :: as) (b :: bs) = true ↔
      a.toNat < b.toNat ∨ (a.toNat = b.toNat ∧ lexLe as bs = true) := by
  by_cases h : a.toNat < b.toNat
  · simp [lexLe, h]
  · by_cases h' : b.toNat < a.toNat
    · have he : a.toNat ≠ b.toNat := by omega
      simp [lexLe, h, h', he]
    · have he : a.toNat = b.toNat := by omega
      simp [lexLe, h, h', he]

theorem lexLe_total (l₁ l₂ : List Char) : lexLe l₁ l₂ = true ∨ lexLe l₂ l₁ = true := by
  induction l₁ generalizing l₂ with
  | nil => exact Or.inl rfl
  | cons a as ih =>
    cases l₂ with
    | nil => exact Or.inr rfl
    | cons b bs =>
      rcases Nat.lt_trichotomy a.toNat b.toNat with h | h | h
      · exact Or.inl ((lexLe_cons_iff a b as bs).mpr (Or.inl h))
      · rcases ih bs with h' | h'
        · exact Or.inl ((lexLe_cons_iff a b as bs).mpr (Or.inr ⟨h, h'⟩))
        · exact Or.inr ((lexLe_cons_iff b a bs as).mpr (Or.inr ⟨h.symm, h'⟩))
      · exact Or.inr ((lexLe_cons_iff b a bs as).mpr (Or.inl h))

theorem lexLe_trans {l₁ l₂ l₃ : List Char} (h₁ : lexLe l₁ l₂ = true)
    (h₂ : lexLe l₂ l₃ = true) : lexLe l₁ l₃ = true := by
  induction l₁ generalizing l₂ l₃ with
  | nil => rfl
  | cons a as ih =>
    cases l₂ with
    | nil => simp [lexLe] at h₁
    | cons b bs =>
      cases l₃ with
      | nil => simp [lexLe] at h₂
      | cons c cs =>
        rw [lexLe_cons_iff] at h₁ h₂ ⊢
        rcases h₁ with h₁ | ⟨e₁, r₁⟩ <;> rcases h₂ with h₂ | ⟨e₂, r₂⟩
        · exact Or.inl (by omega)
        · exact Or.inl (by omega)
        · exact Or.inl (by omega)
        · exact Or.inr ⟨by omega, ih r₁ r₂⟩

theorem lexLe_antisymm {l₁ l₂ : List Char} (h₁ : lexLe l₁ l₂ = true)
    (h₂ : lexLe l₂ l₁ = true) : l₁ = l₂ := by
  induction l₁ generalizing l₂ with
  | nil =>
    cases l₂ with
    | nil => rfl
    | cons b bs => simp [lexLe] at h₂
  | cons a as ih =>
    cases l₂ with
    | nil => simp [lexLe] at h₁
    | cons b bs =>
      rw [lexLe_cons_iff] at h₁ h₂
      rcases h₁ with h₁ | ⟨e₁, r₁⟩ <;> rcases h₂ with h₂ | ⟨e₂, r₂⟩
      · omega
      · omega
      · omega
      · have hab : a = b := Char.eq_of_val_eq (UInt32.toNat.inj e₁)
        rw [hab, ih r₁ r₂]

instance : IsTotal String pyLeRel :=
  ⟨fun a b => lexLe_total a.data b.data⟩

instance : IsTrans String pyLeRel :=
  ⟨fun _ _ _ h₁ h₂ => lexLe_trans h₁ h₂⟩

instance : IsAntisymm String pyLeRel := by
  constructor
  intro a b h₁ h₂
  cases a
  cases b
  exact congrArg String.mk (lexLe_antisymm h₁ h₂)

/-! ### Helper lemmas about the batch processor -/

theorem insertionSort_congr_of_perm {l₁ l₂ : List String} (h : l₁.Perm l₂) :
    List.insertionSort pyLeRel l₁ = List.insertionSort pyLeRel l₂ :=
  List.eq_of_perm_of_sorted
    ((List.perm_insertionSort pyLeRel l₁).trans
      (h.trans (List.perm_insertionSort pyLeRel l₂).symm))
    (List.sorted_insertionSort pyLeRel l₁)
    (List.sorted_insertionSort pyLeRel l₂)

theorem telCandidates_mem_ne_empty {PN : Type} {lib : PhoneLib PN}
    {region x : String} {tels : List String}
    (h : x ∈ telCandidates lib region tels) : x ≠ "" := by
  rw [telCandidates, List.mem_filterMap] at h
  obtain ⟨tel, -, h⟩ := h
  by_cases h₁ : pyTruthyStripped tel = true
  · simp only [h₁, if_true] at h
    by_cases h₂ : (normalize_phone_number lib tel region != "") = true
    · simp only [h₂, if_true, Option.some.injEq] at h
      subst h
      simpa using h₂
    · simp [h₂] at h
  · simp [h₁] at h

theorem telCandidates_length_le {PN : Type} (lib : PhoneLib PN)
    (region : String) (tels : List String) :
    (telCandidates lib region tels).length ≤ tels.length :=
  List.length_filterMap_le _ _

theorem recordNumbers_sorted {PN : Type} (lib : PhoneLib PN) (region : String)
    (v : VCard) : List.Sorted pyLeRel (recordNumbers lib region v) :=
  List.sorted_insertionSort pyLeRel _

theorem recordNumbers_nodup {PN : Type} (lib : PhoneLib PN) (region : String)
    (v : VCard) : (recordNumbers lib region v).Nodup :=
  (List.perm_insertionSort pyLeRel _).nodup_iff.mpr (List.nodup_dedup _)

theorem recordNumbers_mem_iff {PN : Type} (lib : PhoneLib PN) (region : String)
    (v : VCard) (x : String) :
    x ∈ recordNumbers lib region v ↔
      x ∈ telCandidates lib region (v.tel_list.getD []) :=
  ((List.perm_insertionSort pyLeRel _).mem_iff).trans (List.mem_dedup)

theorem recordNumbers_length_le {PN : Type} (lib : PhoneLib PN) (region : String)
    (v : VCard) :
    (recordNumbers lib region v).length ≤
      (telCandidates lib region (v.tel_list.getD [])).length := by
  rw [recordNumbers, (List.perm_insertionSort pyLeRel _).length_eq]
  exact (List.dedup_sublist _).length_le

theorem extractRecordRows_map_snd {PN : Type} (lib : PhoneLib PN)
    (region : String) (v : VCard) :
    (extractRecordRows lib region v).map Prod.snd = recordNumbers lib region v := by
  simp [extractRecordRows, List.map_map, Function.comp]

theorem extractRecordRows_mem {PN : Type} {lib : PhoneLib PN} {region : String}
    {v : VCard} {row : String × String} (h : row ∈ extractRecordRows lib region v) :
    row.1 = get_contact_name v ∧ row.2 ∈ recordNumbers lib region v := by
  rw [extractRecordRows, List.mem_map] at h
  obtain ⟨num, hnum, rfl⟩ := h
  exact ⟨rfl, hnum⟩

theorem chunkRows_snd_ne {PN : Type} {readOne : String → Option VCard}
    {lib : PhoneLib PN} {region chunk : String} {row : String × String}
    (h : row ∈ chunkRows readOne lib region chunk) : row.2 ≠ "" := by
  rw [chunkRows] at h
  by_cases hc : pyContains chunk endMarker = true
  · simp only [hc, if_true] at h
    cases hro : readOne (beginMarker ++ "\n" ++ chunk) with
    | none => rw [hro] at h; simp at h
    | some v =>
      rw [hro] at h
      have hm := (extractRecordRows_mem h).2
      exact telCandidates_mem_ne_empty ((recordNumbers_mem_iff _ _ _ _).mp hm)
  · simp [hc] at h

theorem chunkRows_snd_sorted {PN : Type} (readOne : String → Option VCard)
    (lib : PhoneLib PN) (region chunk : String) :
    List.Sorted pyLeRel ((chunkRows readOne lib region chunk).map Prod.snd) := by
  rw [chunkRows]
  by_cases hc : pyContains chunk endMarker = true
  · simp only [hc, if_true]
    cases readOne (beginMarker ++ "\n" ++ chunk) with
    | none => simp
    | some v => rw [extractRecordRows_map_snd]; exact recordNumbers_sorted lib region v
  · simp [hc]

theorem chunkRows_fst_const {PN : Type} {readOne : String → Option VCard}
    {lib : PhoneLib PN} {region chunk : String} {r₁ r₂ : String × String}
    (h₁ : r₁ ∈ chunkRows readOne lib region chunk)
    (h₂ : r₂ ∈ chunkRows readOne lib region chunk) : r₁.1 = r₂.1 := by
  rw [chunkRows] at h₁ h₂
  by_cases hc : pyContains chunk endMarker = true
  · simp only [hc, if_true] at h₁ h₂
    cases hro : readOne (beginMarker ++ "\n" ++ chunk) with
    | none => rw [hro] at h₁; simp at h₁
    | some v =>
      rw [hro] at h₁ h₂
      rw [(extractRecordRows_mem h₁).1, (extractRecordRows_mem h₂).1]
  · simp [hc] at h₁

theorem chunkRows_of_readOne_none {PN : Type} {readOne : String → Option VCard}
    (lib : PhoneLib PN) (region : String) {chunk : String}
    (h : readOne (beginMarker ++ "\n" ++ chunk) = none) :
    chunkRows readOne lib region chunk = [] := by
  rw [chunkRows, h]
  by_cases hc : pyContains chunk endMarker = true <;> simp [hc]

theorem foldl_append_eq_join {α β : Type} (f : α → List β) (l : List α)
    (acc : List β) :
    l.foldl (fun acc x => acc ++ f x) acc = acc ++ (l.map f).flatten := by
  induction l generalizing acc with
  | nil => simp
  | cons x xs ih => simp [List.foldl_cons, ih, List.append_assoc]

theorem process_eq_join {PN : Type} (readOne : String → Option VCard)
    (lib : PhoneLib PN) (vcf_content region : String) :
    process_vcf_data readOne lib vcf_content region =
      ((pySplit vcf_content beginMarker).map (chunkRows readOne lib region)).flatten := by
  rw [process_vcf_data, foldl_append_eq_join, List.nil_append]

/-! ### The set-iteration order does not influence the output -/

theorem recordNumbersOrd_eq {ord : List String → List String}
    (hord : validSetOrder ord) {PN : Type} (lib : PhoneLib PN)
    (region : String) (v : VCard) :
    recordNumbersOrd ord lib region v = recordNumbers lib region v := by
  rw [recordNumbersOrd, recordNumbers]
  apply insertionSort_congr_of_perm
  apply (List.perm_ext_iff_of_nodup (hord _).1 (List.nodup_dedup _)).mpr
  intro a
  rw [(hord _).2 a, List.mem_dedup]

theorem chunkRowsOrd_eq {ord : List String → List String}
    (hord : validSetOrder ord) {PN : Type} (readOne : String → Option VCard)
    (lib : PhoneLib PN) (region chunk : String) :
    chunkRowsOrd ord readOne lib region chunk = chunkRows readOne lib region chunk := by
  rw [chunkRowsOrd, chunkRows]
  by_cases hc : pyContains chunk endMarker = true
  · simp only [hc, if_true]
    cases readOne (beginMarker ++ "\n" ++ chunk) with
    | none => rfl
    | some v =>
      show extractRecordRowsOrd ord lib region v = extractRecordRows lib region v
      rw [extractRecordRowsOrd, extractRecordRows, recordNumbersOrd_eq hord]
  · simp [hc]

theorem process_vcf_dataOrd_eq {ord : List String → List String}
    (hord : validSetOrder ord) {PN : Type} (readOne : String → Option VCard)
    (lib : PhoneLib PN) (vcf_content region : String) :
    process_vcf_dataOrd ord readOne lib vcf_content region =
      process_vcf_data readOne lib vcf_content region := by
  rw [process_vcf_dataOrd, process_vcf_data]
  have hfun : (fun (acc : List (String × String)) chunk =>
      acc ++ chunkRowsOrd ord readOne lib region chunk) =
      (fun acc chunk => acc ++ chunkRows readOne lib region chunk) := by
    funext acc chunk
    rw [chunkRowsOrd_eq hord]
  rw [hfun]

/-! ### Helper lemmas about the content reader -/

theorem tryDecode_of_all_none {dec : List Nat → String → Option String}
    {raw : List Nat} {es : List String} (h : ∀ e ∈ es, dec raw e = none) :
    tryDecode dec raw es = none := by
  induction es with
  | nil => rfl
  | cons e es ih =>
    rw [tryDecode, h e (List.mem_cons_self e es)]
    exact ih (fun x hx => h x (List.mem_cons_of_mem e hx))

theorem tryDecode_some {dec : List Nat → String → Option String}
    {raw : List Nat} {es : List String} {t : String}
    (h : tryDecode dec raw es = some t) : ∃ e ∈ es, dec raw e = some t := by
  induction es with
  | nil => simp [tryDecode] at h
  | cons e es ih =>
    rw [tryDecode] at h
    cases hd : dec raw e with
    | some t₀ =>
      rw [hd] at h
      exact ⟨e, List.mem_cons_self e es, hd.trans h⟩
    | none =>
      rw [hd] at h
      obtain ⟨e', he', hd'⟩ := ih h
      exact ⟨e', List.mem_cons_of_mem e he', hd'⟩

theorem build_encodings_head (detected : Option String) :
    ∃ rest, build_encodings detected = "utf-8" :: rest := by
  cases detected with
  | none => exact ⟨_, rfl⟩
  | some d =>
    rw [build_encodings]
    by_cases h : (["utf-8", "cp1256"] : List String).contains (pyLower d) = true
    · simp only [h, if_true]
      exact ⟨_, rfl⟩
    · simp only [h, if_false]
      exact ⟨_, rfl⟩

/-! ### Concrete instances used by scenarios and witnesses -/

/-- Phone library behaviour for the concrete scenarios: recognizes exactly
the cleaned Jane Doe number and formats it to itself. -/
def scenarioLib : PhoneLib String where
  parse := fun cleaned _ => if cleaned = "+16505550123" then some cleaned else none
  is_valid_number := fun _ => true
  format_E164 := fun pn => pn

/-- The parsed record of the well-formed scenario card. -/
def scenarioCard : VCard :=
  ⟨some "Jane Doe", none, none, some ["+1 650 555 0123"]⟩

/-- Record-parsing oracle for the scenarios: parses exactly the well-formed
reconstructed card text and raises on anything else. -/
def scenarioReadOne : String → Option VCard := fun s =>
  if s = "BEGIN:VCARD\n\nFN:Jane Doe\nTEL:+1 650 555 0123\nEND:VCARD\n" then
    some scenarioCard
  else none

/-- A document with one well-formed record followed by a truncated record
that is missing its end marker. -/
def scenarioContent : String :=
  "BEGIN:VCARD\nFN:Jane Doe\nTEL:+1 650 555 0123\nEND:VCARD\nBEGIN:VCARD\nFN:Bob\nTEL:12345"

/-- A phone library on which parsing always raises. -/
def failLib : PhoneLib Unit where
  parse := fun _ _ => none
  is_valid_number := fun _ => true
  format_E164 := fun _ => ""

/-- Bool test for C7: the string has no plus sign at any position other
than the first. -/
def plusOnlyLeading (s : String) : Bool :=
  (s.data.drop 1).all (fun c => c != '+')

/-- Decoder oracle whose `utf-8` entry behaves like CPython's utf-8 codec
with `errors='ignore'` and which raises on every other encoding. -/
def utf8OnlyDec : List Nat → String → Option String := fun raw e =>
  if e = "utf-8" then some (utf8DecodeIgnore raw) else none

/-! ### Claim theorems -/

/-- C1: the phone normalizer is total — its result is always the stripped
original or a formatted parse — and whenever parsing raises or validity
checking fails, for any library behaviour, the result equals the original
input with surrounding whitespace stripped, exactly. -/
theorem C1_normalize_total_and_fallback {PN : Type} (lib : PhoneLib PN)
    (number_str region : String) :
    (lib.parse (cleanedNumber number_str) region = none →
      normalize_phone_number lib number_str region = pyStrip number_str)
    ∧ (∀ pn, lib.parse (cleanedNumber number_str) region = some pn →
        lib.is_valid_number pn = false →
        normalize_phone_number lib number_str region = pyStrip number_str)
    ∧ (normalize_phone_number lib number_str region = pyStrip number_str ∨
        ∃ pn, lib.parse (cleanedNumber number_str) region = some pn ∧
          lib.is_valid_number pn = true ∧
          normalize_phone_number lib number_str region = lib.format_E164 pn) := by
  by_cases hs : number_str = ""
  · subst hs
    exact ⟨fun _ => rfl, fun _ _ _ => rfl, Or.inl rfl⟩
  · refine ⟨?_, ?_, ?_⟩
    · intro h
      simp [normalize_phone_number, hs, h]
    · intro pn h hv
      simp [normalize_phone_number, hs, h, hv]
    · cases hp : lib.parse (cleanedNumber number_str) region with
      | none => exact Or.inl (by simp [normalize_phone_number, hs, hp])
      | some pn =>
        by_cases hv : lib.is_valid_number pn = true
        · exact Or.inr ⟨pn, rfl, hv, by simp [normalize_phone_number, hs, hp, hv]⟩
        · exact Or.inl (by simp [normalize_phone_number, hs, hp, hv])

/-- Witness for C1: with a library on which parsing always raises, a padded
number comes back stripped. -/
theorem C1_witness :
    normalize_phone_number failLib " 0555 123 456 " "DZ" = "0555 123 456" :=
  (C1_normalize_total_and_fallback failLib " 0555 123 456 " "DZ").1 rfl

/-- C2: the decode step is total — the result is either some candidate's
successful decode or the replacement-policy decode — and when every
candidate encoding fails structurally, it equals the primary-charset
replacement decode. -/
theorem C2_decode_total_with_replace_fallback
    (dec : List Nat → String → Option String) (decReplace : List Nat → String)
    (detected : Option String) (raw : List Nat) :
    ((∀ e ∈ build_encodings detected, dec raw e = none) →
      decode_vcf_bytes dec decReplace detected raw = decReplace raw)
    ∧ (decode_vcf_bytes dec decReplace detected raw = decReplace raw ∨
        ∃ e ∈ build_encodings detected,
          dec raw e = some (decode_vcf_bytes dec decReplace detected raw)) := by
  constructor
  · intro h
    rw [decode_vcf_bytes, tryDecode_of_all_none h]
  · cases ht : tryDecode dec raw (build_encodings detected) with
    | none => exact Or.inl (by rw [decode_vcf_bytes, ht])
    | some t =>
      right
      have he : decode_vcf_bytes dec decReplace detected raw = t := by
        rw [decode_vcf_bytes, ht]
      rw [he]
      exact tryDecode_some ht

/-- Witness for C2: when every decoder raises, the replacement decode is
returned. -/
theorem C2_witness :
    decode_vcf_bytes (fun _ _ => none) (fun _ => "�") none [0xFF] = "�" :=
  (C2_decode_total_with_replace_fallback (fun _ _ => none) (fun _ => "�")
    none [0xFF]).1 (fun _ _ => rfl)

/-- C9: whenever the first candidate (`utf-8` with the ignore policy)
succeeds — as it always does in the CPython runtime — the content reader
returns exactly that decode, for every detector outcome and every behaviour
of the remaining candidate decoders, which are therefore unreachable. -/
theorem C9_first_candidate_decides
    (dec : List Nat → String → Option String) (decReplace : List Nat → String)
    (detected : Option String) (raw : List Nat)
    (h : dec raw "utf-8" = some (utf8DecodeIgnore raw)) :
    decode_vcf_bytes dec decReplace detected raw = utf8DecodeIgnore raw := by
  obtain ⟨rest, hb⟩ := build_encodings_head detected
  rw [decode_vcf_bytes, hb, tryDecode, h]

/-- Witness for C9: an invalid byte between two ASCII letters is ignored by
the first candidate and nothing else runs. -/
theorem C9_witness :
    decode_vcf_bytes utf8OnlyDec (fun _ => "") (some "ASCII") [0x41, 0xFF, 0x42] = "AB" := by
  rw [C9_first_candidate_decides utf8OnlyDec (fun _ => "") (some "ASCII")
    [0x41, 0xFF, 0x42] rfl]
  decide

/-- C10: the fatal `ParseError` branch of the batch processor is
unreachable — splitting and iterating the document is total, so the
exception-channel embedding always returns `ok` of the plain result. -/
theorem C10_parse_error_unreachable {PN : Type} (readOne : String → Option VCard)
    (lib : PhoneLib PN) (vcf_content region : String) :
    process_vcf_dataE readOne lib vcf_content region =
      Except.ok (process_vcf_data readOne lib vcf_content region) := rfl

/-- C3: per record, the emitted numbers are exactly the distinct normalized
candidates (nodup, same membership), sorted lexicographically; the row
count equals that distinct count, which is at most the number of usable
telephone values; and an empty normalized set yields zero rows. -/
theorem C3_record_rows_distinct_sorted {PN : Type} (lib : PhoneLib PN)
    (region : String) (v : VCard) :
    List.Sorted pyLeRel (recordNumbers lib region v)
    ∧ (recordNumbers lib region v).Nodup
    ∧ (∀ x, x ∈ recordNumbers lib region v ↔
        x ∈ telCandidates lib region (v.tel_list.getD []))
    ∧ (extractRecordRows lib region v).map Prod.snd = recordNumbers lib region v
    ∧ (extractRecordRows lib region v).length = (recordNumbers lib region v).length
    ∧ (recordNumbers lib region v).length ≤
        (telCandidates lib region (v.tel_list.getD [])).length
    ∧ (telCandidates lib region (v.tel_list.getD [])).length ≤
        (v.tel_list.getD []).length
    ∧ (telCandidates lib region (v.tel_list.getD []) = [] →
        extractRecordRows lib region v = []) :=
  ⟨recordNumbers_sorted lib region v,
   recordNumbers_nodup lib region v,
   recordNumbers_mem_iff lib region v,
   extractRecordRows_map_snd lib region v,
   List.length_map _ _,
   recordNumbers_length_le lib region v,
   telCandidates_length_le lib region (v.tel_list.getD []),
   fun h => by rw [extractRecordRows, recordNumbers, h]; rfl⟩

/-- Witness for C3: a record with no telephone field contributes zero
rows. -/
theorem C3_witness :
    extractRecordRows failLib "DZ" ⟨some "X", none, none, none⟩ = [] :=
  (C3_record_rows_distinct_sorted failLib "DZ"
    ⟨some "X", none, none, none⟩).2.2.2.2.2.2.2 rfl

/-- C4: every emitted row has a non-empty number, and the output is the
concatenation, in source-chunk order, of per-record blocks whose numbers
are sorted lexicographically and whose name component is constant. -/
theorem C4_rows_nonempty_and_ordered {PN : Type} (readOne : String → Option VCard)
    (lib : PhoneLib PN) (vcf_content region : String) :
    (∀ row ∈ process_vcf_data readOne lib vcf_content region, row.2 ≠ "")
    ∧ process_vcf_data readOne lib vcf_content region =
        ((pySplit vcf_content beginMarker).map (chunkRows readOne lib region)).flatten
    ∧ (∀ chunk, List.Sorted pyLeRel
        ((chunkRows readOne lib region chunk).map Prod.snd))
    ∧ (∀ chunk, ∀ r₁ ∈ chunkRows readOne lib region chunk,
        ∀ r₂ ∈ chunkRows readOne lib region chunk, r₁.1 = r₂.1) := by
  refine ⟨?_, process_eq_join readOne lib vcf_content region,
    fun chunk => chunkRows_snd_sorted readOne lib region chunk,
    fun chunk r₁ h₁ r₂ h₂ => chunkRows_fst_const h₁ h₂⟩
  intro row hrow
  rw [process_eq_join, List.mem_flatten] at hrow
  obtain ⟨block, hb, hr⟩ := hrow
  rw [List.mem_map] at hb
  obtain ⟨chunk, -, rfl⟩ := hb
  exact chunkRows_snd_ne hr

/-- Witness for C4: the row emitted in the concrete scenario has a
non-empty number. -/
theorem C4_witness : (("Jane Doe", "+16505550123") : String × String).2 ≠ "" :=
  (C4_rows_nonempty_and_ordered scenarioReadOne scenarioLib scenarioContent "DZ").1
    ("Jane Doe", "+16505550123") (by decide)

/-- C5: a chunk on which record extraction raises contributes no rows while
the rest of the document is processed normally (the output is the
chunk-wise concatenation), and the end-to-end scenario of one well-formed
record followed by a truncated record yields exactly the well-formed
record's row. -/
theorem C5_per_record_isolation :
    (∀ (PN : Type) (readOne : String → Option VCard) (lib : PhoneLib PN)
        (region chunk : String),
        readOne (beginMarker ++ "\n" ++ chunk) = none →
        chunkRows readOne lib region chunk = [])
    ∧ (∀ (PN : Type) (readOne : String → Option VCard) (lib : PhoneLib PN)
        (vcf_content region : String),
        process_vcf_data readOne lib vcf_content region =
          ((pySplit vcf_content beginMarker).map (chunkRows readOne lib region)).flatten)
    ∧ process_vcf_data scenarioReadOne scenarioLib scenarioContent "DZ" =
        [("Jane Doe", "+16505550123")] :=
  ⟨fun _ _ lib region _ h => chunkRows_of_readOne_none lib region h,
   fun _ readOne lib vcf_content region => process_eq_join readOne lib vcf_content region,
   by decide⟩

/-- Witness for C5: a chunk with an end marker on which the parser raises
contributes no rows. -/
theorem C5_witness :
    chunkRows (fun _ => none) failLib "DZ" "FN:A\nEND:VCARD\n" = [] :=
  C5_per_record_isolation.1 Unit (fun _ => none) failLib "DZ" "FN:A\nEND:VCARD\n" rfl

/-- C6: name resolution follows the fixed fallback order with first
non-empty winning — FN, then joined N parts, then first ORG value, then the
placeholder — and the scenario with only given and family parts resolves to
them joined by one space. -/
theorem C6_name_fallback_order :
    (∀ (v : VCard) (r : String), nameFromFn v = some r → get_contact_name v = r)
    ∧ (∀ (v : VCard) (r : String), nameFromFn v = none → nameFromN v = some r →
        get_contact_name v = r)
    ∧ (∀ (v : VCard) (r : String), nameFromFn v = none → nameFromN v = none →
        nameFromOrg v = some r → get_contact_name v = r)
    ∧ (∀ v : VCard, nameFromFn v = none → nameFromN v = none →
        nameFromOrg v = none → get_contact_name v = unknownName)
    ∧ get_contact_name ⟨none, some ⟨"John", "", "Smith"⟩, none, none⟩ = "John Smith" := by
  refine ⟨?_, ?_, ?_, ?_, by decide⟩
  · intro v r h
    rw [get_contact_name, h]
  · intro v r h₁ h₂
    rw [get_contact_name, h₁, h₂]
  · intro v r h₁ h₂ h₃
    rw [get_contact_name, h₁, h₂, h₃]
  · intro v h₁ h₂ h₃
    rw [get_contact_name, h₁, h₂, h₃]

/-- Witness for C6: a blank-padded FN wins and is stripped. -/
theorem C6_witness : get_contact_name ⟨some " Jane ", none, none, none⟩ = "Jane" :=
  C6_name_fallback_order.1 ⟨some " Jane ", none, none, none⟩ "Jane" (by decide)

/-- C7 counterexample: on input `"1+2"` the filtered string passed to the
parser keeps the interior plus sign, so it is not true that a plus can only
appear at the first position. -/
theorem C7_counterexample : plusOnlyLeading (cleanedNumber "1+2") = false := by
  decide

/-- C7 amended: the filter retains exactly the digit characters and the
plus signs of the input, in order — a plus sign is kept at any position,
not only a leading one. -/
theorem C7_filter_digits_and_plus (s : String) :
    (∀ c ∈ (cleanedNumber s).data, c.isDigit = true ∨ c = '+')
    ∧ (cleanedNumber s).data.Sublist s.data
    ∧ (∀ c ∈ s.data, (c.isDigit = true ∨ c = '+') → c ∈ (cleanedNumber s).data) := by
  refine ⟨?_, List.filter_sublist s.data, ?_⟩
  · intro c hc
    rw [cleanedNumber] at hc
    have hm := List.mem_filter.mp hc
    have hk := hm.2
    rw [keepPhoneChar] at hk
    rcases Bool.or_eq_true_iff.mp hk with h | h
    · exact Or.inl h
    · exact Or.inr (by simpa using h)
  · intro c hc hor
    rw [cleanedNumber]
    refine List.mem_filter.mpr ⟨hc, ?_⟩
    rw [keepPhoneChar]
    rcases hor with h | h
    · simp [h]
    · simp [h]

/-- Witness for C7's amended theorem at a concrete input. -/
theorem C7_witness : ('+' : Char).isDigit = true ∨ ('+' : Char) = '+' :=
  (C7_filter_digits_and_plus "+12").1 '+' (by decide)

/-- C8: the processor's output does not depend on the set-iteration order —
any two valid iteration orders produce identical row sequences, equal to
the canonical deterministic result, so repeated runs on the same input
agree. -/
theorem C8_output_independent_of_set_order
    (ord₁ ord₂ : List String → List String)
    (h₁ : validSetOrder ord₁) (h₂ : validSetOrder ord₂)
    (PN : Type) (readOne : String → Option VCard) (lib : PhoneLib PN)
    (vcf_content region : String) :
    process_vcf_dataOrd ord₁ readOne lib vcf_content region =
      process_vcf_dataOrd ord₂ readOne lib vcf_content region
    ∧ process_vcf_dataOrd ord₁ readOne lib vcf_content region =
      process_vcf_data readOne lib vcf_content region :=
  ⟨(process_vcf_dataOrd_eq h₁ readOne lib vcf_content region).trans
      (process_vcf_dataOrd_eq h₂ readOne lib vcf_content region).symm,
   process_vcf_dataOrd_eq h₁ readOne lib vcf_content region⟩

/-- Deduplication is a valid set-iteration order. -/
theorem valid_dedup : validSetOrder List.dedup :=
  fun l => ⟨List.nodup_dedup l, fun _ => List.mem_dedup⟩

/-- Reversed deduplication is a valid set-iteration order. -/
theorem valid_dedup_reverse : validSetOrder (fun l => l.dedup.reverse) :=
  fun l => ⟨List.nodup_reverse.mpr (List.nodup_dedup l),
    fun x => by simp [List.mem_reverse, List.mem_dedup]⟩

/-- Witness for C8: two concrete iteration orders agree on the scenario. -/
theorem C8_witness :
    process_vcf_dataOrd List.dedup scenarioReadOne scenarioLib scenarioContent "DZ" =
      process_vcf_dataOrd (fun l => l.dedup.reverse) scenarioReadOne scenarioLib
        scenarioContent "DZ"
    ∧ process_vcf_dataOrd List.dedup scenarioReadOne scenarioLib scenarioContent "DZ" =
      process_vcf_data scenarioReadOne scenarioLib scenarioContent "DZ" :=
  C8_output_independent_of_set_order List.dedup (fun l => l.dedup.reverse)
    valid_dedup valid_dedup_reverse String scenarioReadOne scenarioLib
    scenarioContent "DZ"

end VcfConverter
